import Mathlib

/-!
Verification of the Pyrewall firewall core against its specification.

The Python sources are embedded shallowly:
* `String`/`bytes` values become `Str := List Char` and `List Byte` with
  `Byte := Fin 256`; the Python primitives used by the code (`lower`,
  `lstrip`, `rstrip`, `strip`, `split`, `startswith`, `endswith`, `in`)
  are reproduced over these lists;
* the sqlite tables become lists of row structures, and each write path
  becomes a pure function on those lists;
* the packet loop's per-packet decision pipeline becomes a function from
  the filter state and a captured packet to a verdict.
-/

/-! ## Basic Python string/bytes primitives -/

abbrev Byte := Fin 256

abbrev Str := List Char

/-- Character list of a string literal (used to write concrete inputs). -/
def str (s : String) : Str := s.data

/-- ASCII bytes of a string literal (used to write concrete payloads). -/
def strBytes (s : String) : List Byte :=
  s.data.map (fun c => ⟨c.toNat % 256, Nat.mod_lt _ (by omega)⟩)

/-- Python `str.lower` on a single character, for the latin-1 range:
ASCII `A`-`Z` and latin-1 `À`-`Þ` (except `×`) gain 32; everything else
is unchanged. -/
def pyLowerChar (c : Char) : Char :=
  if 65 ≤ c.toNat ∧ c.toNat ≤ 90 then Char.ofNat (c.toNat + 32)
  else if 192 ≤ c.toNat ∧ c.toNat ≤ 222 ∧ c.toNat ≠ 215 then Char.ofNat (c.toNat + 32)
  else c

/-- Python `str.lower`. -/
def pyLower (s : Str) : Str := s.map pyLowerChar

/-- Python `str.lstrip(chars)`: drop leading characters that belong to
`chars` (a character class, not a prefix). -/
def pyLstrip (chars : List Char) (s : Str) : Str :=
  s.dropWhile (fun c => chars.contains c)

/-- Python `str.rstrip(chars)`. -/
def pyRstrip (chars : List Char) (s : Str) : Str :=
  (s.reverse.dropWhile (fun c => chars.contains c)).reverse

/-- Python `needle in hay` on sequences: `needle` occurs contiguously in
`hay`. -/
def pyIn {α : Type} [BEq α] (needle hay : List α) : Bool :=
  hay.tails.any (fun t => needle.isPrefixOf t)

/-! ## DNS proxy (`pyrewall/core/dns_proxy.py`)

`DNSProxy._is_blocked` normalises the query name with
`qname.rstrip(".").lower()` and then, for every non-empty cached domain
`d`, compares against `check = d.lower().lstrip("*.")`; note that
Python's `lstrip` removes a *character class*, i.e. every leading `*`
and `.`, not the two-character prefix `*.`. -/

/-- The comparison key the proxy derives from a cached domain `d`:
`d.lower().lstrip("*.")`. -/
def dnsCheckOf (d : Str) : Str := pyLstrip ['*', '.'] (pyLower d)

/-- The normalised query name: `qname.rstrip(".").lower()`. -/
def dnsNormalize (qname : Str) : Str := pyLower (pyRstrip ['.'] qname)

/-- Embeds `DNSProxy._is_blocked(qname)` over an in-memory cache of blocked
domains. -/
def dns_is_blocked (cache : List Str) (qname : Str) : Bool :=
  let q := dnsNormalize qname
  cache.any (fun d =>
    !d.isEmpty &&
      (q == dnsCheckOf d || ('.' :: dnsCheckOf d).isSuffixOf q))

/-- DNS header as built by `DNSHeader(id=..., qr=1, aa=1, ra=1,
rcode=RCODE.NXDOMAIN)`. -/
structure DNSHeader where
  hid : Nat
  qr : Nat
  aa : Nat
  ra : Nat
  rcode : Nat
deriving DecidableEq

/-- Embeds `RCODE.NXDOMAIN` of the DNS wire protocol. -/
def NXDOMAIN : Nat := 3

/-- A DNS reply message: header plus answer records (the proxy never
attaches any answer record to a blocked reply). -/
structure DNSReply where
  header : DNSHeader
  answers : List Str
deriving DecidableEq

/-- What `DNSProxy._handle_query` does with a parsed query: reply
directly (blocked case) or forward the raw query upstream. -/
inductive DNSAction where
  | reply (r : DNSReply)
  | forwardUpstream
deriving DecidableEq

/-- The blocked reply `DNSRecord(DNSHeader(id=request.header.id, qr=1,
aa=1, ra=1, rcode=RCODE.NXDOMAIN))`. -/
def nxdomainReply (reqId : Nat) : DNSReply :=
  { header := { hid := reqId, qr := 1, aa := 1, ra := 1, rcode := NXDOMAIN }
    answers := [] }

/-- Embeds `DNSProxy._handle_query` after successful parsing: `qname` is the
query name with its trailing dot stripped. -/
def handle_query (cache : List Str) (reqId : Nat) (qname : Str) : DNSAction :=
  if dns_is_blocked cache qname then .reply (nxdomainReply reqId)
  else .forwardUpstream

/-! ## Credential handling (`pyrewall/core/security.py`)

`hash_password` stores `f"{iterations}${salt.hex()}${dk.hex()}"` where
`dk = hashlib.pbkdf2_hmac("sha256", password.encode("utf-8"), salt,
iterations)`; `verify_password` splits on `$`, re-derives and compares
with `hmac.compare_digest`.  The PBKDF2-HMAC-SHA256 primitive itself is
library code outside the repository; it is embedded as an uninterpreted
deterministic function `pbkdf2 : Str → List Byte → Nat → List Byte`
(password, salt, iteration count ↦ derived key), and `os.urandom`'s
fresh salt becomes an explicit argument. -/

/-- Decimal digit character. -/
def decDigit (n : Nat) : Char := Char.ofNat (48 + n)

/-- Decimal rendering of a natural number (Python `f"{n}"`), driven by
a fuel argument so the definition is structural. -/
def natToDecAux : Nat → Nat → Str
  | 0, _ => []
  | fuel + 1, n =>
    if n < 10 then [decDigit n]
    else natToDecAux fuel (n / 10) ++ [decDigit (n % 10)]

/-- Decimal rendering of a natural number. -/
def natToDec (n : Nat) : Str := natToDecAux (n + 1) n

/-- Python `int(s)` restricted to the digit strings the credential code
produces: some value for a non-empty all-digit string, `none` (the
`ValueError` path) otherwise. -/
def pyInt? (s : Str) : Option Nat :=
  if s ≠ [] ∧ s.all (fun c => 48 ≤ c.toNat ∧ c.toNat ≤ 57) then
    some (s.foldl (fun a c => a * 10 + (c.toNat - 48)) 0)
  else none

/-- Lower-case hex digit character, as produced by `bytes.hex()`. -/
def hexDigitChar (n : Nat) : Char :=
  if n < 10 then Char.ofNat (48 + n) else Char.ofNat (87 + n)

/-- Embeds `bytes.hex()` of a single byte: two lower-case hex digits. -/
def byteToHex (b : Byte) : Str :=
  [hexDigitChar (b.val / 16), hexDigitChar (b.val % 16)]

/-- Embeds `bytes.hex()`. -/
def bytesToHex (bs : List Byte) : Str :=
  bs.foldr (fun b acc => byteToHex b ++ acc) []

/-- Value of one hex digit character (upper or lower case), `none` for
any other character. -/
def hexDigitVal? (c : Char) : Option (Fin 16) :=
  if h : 48 ≤ c.toNat ∧ c.toNat ≤ 57 then some ⟨c.toNat - 48, by omega⟩
  else if h : 97 ≤ c.toNat ∧ c.toNat ≤ 102 then some ⟨c.toNat - 87, by omega⟩
  else if h : 65 ≤ c.toNat ∧ c.toNat ≤ 70 then some ⟨c.toNat - 55, by omega⟩
  else none

/-- Embeds `bytes.fromhex(s)`: pairs of hex digits, `none` (the raising path)
on an odd length or a non-hex character. -/
def hexToBytes? : Str → Option (List Byte)
  | [] => some []
  | [_] => none
  | c1 :: c2 :: rest =>
    match hexDigitVal? c1, hexDigitVal? c2, hexToBytes? rest with
    | some h, some l, some tail => some (⟨h.val * 16 + l.val, by omega⟩ :: tail)
    | _, _, _ => none

/-- Embeds `PBKDF2_ITERATIONS` from `security.py`. -/
def PBKDF2_ITERATIONS : Nat := 150000

/-- Embeds `SALT_BYTES` from `security.py`. -/
def SALT_BYTES : Nat := 16

/-- Embeds `security.hash_password(password, iterations)`, with the fresh
`os.urandom(SALT_BYTES)` salt passed explicitly; `none` models the
`ValueError` raised on an empty password. -/
def hash_password (pbkdf2 : Str → List Byte → Nat → List Byte)
    (salt : List Byte) (iterations : Nat) (password : Str) : Option Str :=
  if password = [] then none
  else some (natToDec iterations ++ '$' :: bytesToHex salt ++ '$' ::
    bytesToHex (pbkdf2 password salt iterations))

/-- Python `s.split(sep)` for a single-character separator. -/
def pySplitChar (sep : Char) : Str → List Str
  | [] => [[]]
  | c :: rest =>
    if c = sep then [] :: pySplitChar sep rest
    else
      match pySplitChar sep rest with
      | [] => [[c]]
      | h :: t => (c :: h) :: t

/-- Embeds `security.verify_password(stored, password)`: split the stored
string on `$`, require exactly three fields, parse the iteration count
and the two hex fields, re-derive and compare (any failure, i.e. the
`except` path, yields `False`).  `hmac.compare_digest` is byte-string
equality. -/
def verify_password (pbkdf2 : Str → List Byte → Nat → List Byte)
    (stored password : Str) : Bool :=
  match pySplitChar '$' stored with
  | [p0, p1, p2] =>
    match pyInt? p0, hexToBytes? p1, hexToBytes? p2 with
    | some iterations, some salt, some expected =>
      expected == pbkdf2 password salt iterations
    | _, _, _ => false
  | _ => false

/-! ## User store and install bootstrap (`security.py`, `db/install.py`)

The `users` sqlite table (`username TEXT PRIMARY KEY, password TEXT NOT
NULL, role TEXT`) becomes a list of rows; `INSERT OR IGNORE` keeps the
first row for a username, a plain `INSERT` on an existing username is
the `IntegrityError` path of `create_user`. -/

structure UserRow where
  username : Str
  password : Str
  role : Str
deriving DecidableEq

/-- Embeds `INSERT OR IGNORE INTO users ...` (primary key `username`). -/
def insertUserOrIgnore (users : List UserRow) (u : UserRow) : List UserRow :=
  if users.any (fun x => x.username == u.username) then users
  else users ++ [u]

/-- Embeds `security.ensure_default_admin()` (runs at import time of
`pyrewall.core.security`): if no row has role `admin`, insert the user
`admin` with `hash_password("admin")`. -/
def ensure_default_admin (pbkdf2 : Str → List Byte → Nat → List Byte)
    (salt : List Byte) (users : List UserRow) : Option (List UserRow) :=
  if users.any (fun u => u.role == str "admin") then some users
  else
    (hash_password pbkdf2 salt PBKDF2_ITERATIONS (str "admin")).map
      (fun h => insertUserOrIgnore users ⟨str "admin", h, str "admin"⟩)

/-- Embeds `security.create_user(username, password, role)`: hash, then plain
`INSERT`; an existing username raises `IntegrityError`, caught and
returned as `False`. -/
def create_user (pbkdf2 : Str → List Byte → Nat → List Byte)
    (salt : List Byte) (username password role : Str)
    (users : List UserRow) : Option (Bool × List UserRow) :=
  (hash_password pbkdf2 salt PBKDF2_ITERATIONS password).map
    (fun h =>
      if users.any (fun x => x.username == username) then (false, users)
      else (true, users ++ [⟨username, h, role⟩]))

/-- Embeds `security.validate_user(username, password)`. -/
def validate_user (pbkdf2 : Str → List Byte → Nat → List Byte)
    (users : List UserRow) (username password : Str) : Bool :=
  match users.find? (fun u => u.username == username) with
  | none => false
  | some u => verify_password pbkdf2 u.password password

/-- The `first_run.json` marker data written by
`install.ensure_fresh_installation`: the one-time plaintext credentials
(`DEFAULT_ADMIN`) and the `admin_created` flag returned by
`_create_default_admin`. -/
structure FirstRunMarker where
  username : Str
  password : Str
  admin_created : Bool
deriving DecidableEq

/-- Embeds `install.ensure_fresh_installation()` on a fresh run (marker file
absent), restricted to its effect on the `users` table and the marker
contents.  `_create_default_admin` does `from pyrewall.core import
security`, whose import runs `ensure_default_admin()` (salt `saltA`)
*before* `security.create_user("admin", "password", "admin")` (salt
`saltC`) is invoked. -/
def ensure_fresh_installation (pbkdf2 : Str → List Byte → Nat → List Byte)
    (saltA saltC : List Byte) (users : List UserRow) :
    Option (List UserRow × FirstRunMarker) := do
  let u1 ← ensure_default_admin pbkdf2 saltA users
  let cr ← create_user pbkdf2 saltC (str "admin") (str "password") (str "admin") u1
  some (cr.2, ⟨str "admin", str "password", cr.1⟩)

/-- A concrete stand-in for the PBKDF2 primitive, used only to evaluate
the credential flow on concrete inputs: it keys on the password bytes,
so distinct ASCII passwords yield distinct derived keys. -/
def pbkdf2Demo : Str → List Byte → Nat → List Byte :=
  fun pwd _salt _iter => pwd.map (fun c => ⟨c.toNat % 256, Nat.mod_lt _ (by omega)⟩)

/-- A concrete 16-byte salt for witnesses. -/
def salt16 : List Byte := strBytes "0123456789abcdef"

/-! ## Blocked-IP store (`pyrewall/core/firewall_thread.py`)

The `blocked_ips` table after `ensure_blocked_ips_schema` has columns
`ip TEXT PRIMARY KEY, domain TEXT, expires_at DATETIME, reason TEXT`;
it becomes a list of rows.  DNS resolution (`socket.getaddrinfo` /
`resolve_domain_to_ips`) is external input and becomes a `resolve`
function argument; the wall clock becomes an explicit `expires_at`
string argument. -/

structure BlockedIPRow where
  ip : Str
  domain : Option Str
  expires_at : Option Str
  reason : Option Str
deriving DecidableEq

/-- Embeds `INSERT OR IGNORE INTO blocked_ips ...` (primary key `ip`). -/
def insertIpOrIgnore (rows : List BlockedIPRow) (r : BlockedIPRow) : List BlockedIPRow :=
  if rows.any (fun x => x.ip == r.ip) then rows else rows ++ [r]

/-- Embeds `INSERT OR REPLACE INTO blocked_ips ...` (primary key `ip`). -/
def insertIpOrReplace (rows : List BlockedIPRow) (r : BlockedIPRow) : List BlockedIPRow :=
  rows.filter (fun x => !(x.ip == r.ip)) ++ [r]

/-- The runtime critical-protection set `FirewallThread._critical_ips`:
seeded with loopback, `0.0.0.0` and `localhost`, optionally extended
with the detected default gateway, and always extended with the four
well-known public resolvers. -/
def criticalIps (gateway : Option Str) : List Str :=
  [str "127.0.0.1", str "0.0.0.0", str "localhost"] ++ gateway.toList ++
    [str "8.8.8.8", str "1.1.1.1", str "9.9.9.9", str "208.67.222.222"]

/-- The union of resolved IPs over all blocked domains (the `all_ips`
set accumulated by `sync_blocked_ips`). -/
def resolvedUnion (resolve : Str → List Str) (domains : List Str) : List Str :=
  (domains.foldr (fun d acc => resolve d ++ acc) []).dedup

/-- Result of `sync_blocked_ips`: the new table contents, plus whether
the function itself set the module-level `domain_update_event` (it does
not; its callers `add_blocked_domain` / `remove_blocked_domain` set the
event after it returns). -/
structure SyncResult where
  rows : List BlockedIPRow
  reload_signaled : Bool
deriving DecidableEq

/-- Embeds `sync_blocked_ips()`: `DELETE FROM blocked_ips` (all rows), then
`INSERT OR IGNORE` one bare row per resolved IP, in one transaction.
The prior table contents are an argument only to exhibit that they are
discarded wholesale. -/
def sync_blocked_ips (resolve : Str → List Str) (domains : List Str)
    (_prior : List BlockedIPRow) : SyncResult :=
  let allIps := resolvedUnion resolve domains
  { rows := allIps.foldl (fun rows ip => insertIpOrIgnore rows ⟨ip, none, none, none⟩) []
    reload_signaled := false }

/-- Embeds `FirewallThread._resolve_and_store_ips(domain_hit)`: insert every
address `getaddrinfo` returned (passed in as `resolved`) into the
existing table. -/
def resolve_and_store_ips (resolved : List Str) (rows : List BlockedIPRow) :
    List BlockedIPRow :=
  resolved.foldl (fun rs ip => insertIpOrIgnore rs ⟨ip, none, none, none⟩) rows

/-- Embeds `FirewallThread._add_temporary_block_ip(ip, domain_hit, ttl)`:
refuse an empty or critical IP, otherwise upsert a row carrying the
origin domain, the expiry timestamp and reason `"auto-temp"`. -/
def add_temporary_block_ip (critical : List Str) (rows : List BlockedIPRow)
    (ip domain_hit expires_at : Str) : List BlockedIPRow :=
  if ip = [] then rows
  else if critical.contains ip then rows
  else insertIpOrReplace rows ⟨ip, some domain_hit, some expires_at, some (str "auto-temp")⟩

/-! ## Packet filter engine (`FirewallThread.run`)

A captured packet is its destination IP (as text), destination port,
protocol and raw payload.  The per-packet pipeline of the `while` body
becomes `processPacket`, producing a verdict: any `continue` before the
`w.send(pkt)` call is a drop, `w.send(pkt)` is re-injection. -/

inductive Proto where
  | tcp
  | udp
deriving DecidableEq

structure Packet where
  dst_ip : Str
  dst_port : Nat
  protocol : Proto
  payload : List Byte
deriving DecidableEq

/-- One row of `app_signatures` as consumed by the filter loop
(`for _, app_name, pattern, ip_range, proto in self.app_signatures`). -/
structure AppSig where
  app_name : Str
  pat : Str
  ip_range : Str
  proto : Str
deriving DecidableEq

inductive Verdict where
  | dropIpBlock
  | dropQuic
  | dropDoh
  | dropDomain (d : Str)
  | dropApp (s : AppSig)
  | reinject
deriving DecidableEq

/-- The filter thread's in-memory caches. -/
structure FilterState where
  domains : List Str
  blocked_ips : List Str
  app_signatures : List AppSig
deriving DecidableEq

/-- Embeds `bytes.lower()` on one byte: ASCII `A`-`Z` gains 32. -/
def byteLower (b : Byte) : Byte :=
  if h : 65 ≤ b.val ∧ b.val ≤ 90 then ⟨b.val + 32, by omega⟩ else b

/-- Embeds `bytes.lower()`. -/
def pyBytesLower (bs : List Byte) : List Byte := bs.map byteLower

/-- Embeds `payload.decode("iso-8859-1")`: latin-1 is the identity on byte
values, so this is total. -/
def latin1 (bs : List Byte) : Str := bs.map (fun b => Char.ofNat b.val)

/-- Python `text.split("\r\n")`. -/
def splitCRLF : Str → List Str
  | [] => [[]]
  | '\r' :: '\n' :: rest => [] :: splitCRLF rest
  | c :: rest =>
    match splitCRLF rest with
    | [] => [[c]]
    | h :: t => (c :: h) :: t

/-- The character class of Python `str.strip()` (default whitespace),
restricted to the latin-1 range. -/
def pySpaceChars : List Char :=
  [' ', '\t', '\n', '\r', Char.ofNat 11, Char.ofNat 12, Char.ofNat 28,
    Char.ofNat 29, Char.ofNat 30, Char.ofNat 31, Char.ofNat 133, Char.ofNat 160]

/-- Python `str.strip()`. -/
def pyStrip (s : Str) : Str := pyRstrip pySpaceChars (pyLstrip pySpaceChars s)

/-- Everything before the first `:` (Python `s.split(":")[0]`). -/
def takeBeforeColon (s : Str) : Str := s.takeWhile (fun c => !(c == ':'))

/-- Everything after the first `:` (Python `s.split(":", 1)[1]`, which
is only evaluated on lines known to contain a colon). -/
def dropThroughColon (s : Str) : Str := (s.dropWhile (fun c => !(c == ':'))).drop 1

/-- The request-method prefixes `extract_http_host` probes for. -/
def httpMethodPrefixes : List (List Byte) :=
  [strBytes "GET ", strBytes "POST ", strBytes "HEAD ", strBytes "PUT ",
    strBytes "OPTIONS "]

/-- The header scan of `extract_http_host`: first line whose
lower-casing starts with `host:` yields
`line.split(":", 1)[1].strip().split(":")[0].lower()`. -/
def httpHostFromLines : List Str → Option Str
  | [] => none
  | line :: rest =>
    if (str "host:").isPrefixOf (pyLower line) then
      some (pyLower (takeBeforeColon (pyStrip (dropThroughColon line))))
    else httpHostFromLines rest

/-- Embeds `extract_http_host(payload)`. -/
def extract_http_host (payload : List Byte) : Option Str :=
  if payload = [] then none
  else if !(httpMethodPrefixes.any (fun p => p.isPrefixOf payload)) then none
  else httpHostFromLines (splitCRLF (latin1 payload))

/-- Embeds `payload[i]` as a value; `none` is the `IndexError` path. -/
def byteAt? (p : List Byte) (i : Nat) : Option Nat := (p.get? i).map Fin.val

/-- Embeds `struct.unpack("!H", payload[i:i+2])[0]`; `none` is the
`struct.error` path taken when fewer than two bytes remain. -/
def u16At? (p : List Byte) (i : Nat) : Option Nat :=
  match p.get? i, p.get? (i + 1) with
  | some a, some b => some (a.val * 256 + b.val)
  | _, _ => none

/-- Continuation-byte test for UTF-8. -/
def contByte (b : Byte) : Bool := 128 ≤ b.val ∧ b.val ≤ 191

/-- Embeds `bytes.decode("utf-8", errors="ignore")`, driven by a fuel
argument (each step consumes at least one byte, so a fuel of the input
length is exact): well-formed sequences decode to their code point; a
malformed lead or continuation byte is skipped (the `ignore`
handler). -/
def utf8DecodeAux : Nat → List Byte → Str
  | 0, _ => []
  | _, [] => []
  | fuel + 1, b1 :: t1 =>
    if b1.val < 128 then Char.ofNat b1.val :: utf8DecodeAux fuel t1
    else if 194 ≤ b1.val ∧ b1.val ≤ 223 then
      match t1 with
      | b2 :: t2 =>
        if contByte b2 then
          Char.ofNat ((b1.val - 192) * 64 + (b2.val - 128)) :: utf8DecodeAux fuel t2
        else utf8DecodeAux fuel t1
      | [] => []
    else if 224 ≤ b1.val ∧ b1.val ≤ 239 then
      match t1 with
      | b2 :: b3 :: t3 =>
        if contByte b2 && contByte b3 then
          let cp := (b1.val - 224) * 4096 + (b2.val - 128) * 64 + (b3.val - 128)
          if 2048 ≤ cp ∧ (cp < 55296 ∨ 57343 < cp) then
            Char.ofNat cp :: utf8DecodeAux fuel t3
          else utf8DecodeAux fuel t1
        else utf8DecodeAux fuel t1
      | _ => utf8DecodeAux fuel t1
    else if 240 ≤ b1.val ∧ b1.val ≤ 244 then
      match t1 with
      | b2 :: b3 :: b4 :: t4 =>
        if contByte b2 && contByte b3 && contByte b4 then
          let cp := (b1.val - 240) * 262144 + (b2.val - 128) * 4096 +
            (b3.val - 128) * 64 + (b4.val - 128)
          if 65536 ≤ cp ∧ cp ≤ 1114111 then Char.ofNat cp :: utf8DecodeAux fuel t4
          else utf8DecodeAux fuel t1
        else utf8DecodeAux fuel t1
      | _ => utf8DecodeAux fuel t1
    else utf8DecodeAux fuel t1

/-- Embeds `bytes.decode("utf-8", errors="ignore")`. -/
def utf8Decode (bs : List Byte) : Str := utf8DecodeAux bs.length bs

/-- Embeds `server_name.split(":")[0].lower()` applied to a decoded SNI byte
slice. -/
def sniHostOf (bs : List Byte) : Str := pyLower (takeBeforeColon (utf8Decode bs))

/-- The inner `while offset + 3 <= sn_end` walk over server-name
entries, driven by a fuel argument (`offset` grows by at least 3 per
iteration, so a fuel of `sn_end + 1` is always enough); note `sn_end`
is taken from the payload and is *not* checked against the payload
length, so the byte accesses may fail (`none`) and the final name
slice silently truncates. -/
def sniNameLoopAux : Nat → List Byte → Nat → Nat → Option Str
  | 0, _, _, _ => none
  | fuel + 1, p, snEnd, offset =>
    if offset + 3 ≤ snEnd then
      match byteAt? p offset with
      | none => none
      | some nameType =>
        match u16At? p (offset + 1) with
        | none => none
        | some nameLen =>
          if offset + 3 + nameLen > snEnd then none
          else if nameType = 0 then
            some (sniHostOf ((p.drop (offset + 3)).take nameLen))
          else sniNameLoopAux fuel p snEnd (offset + 3 + nameLen)
    else none

/-- The inner server-name walk started with sufficient fuel. -/
def sniNameLoop (p : List Byte) (snEnd offset : Nat) : Option Str :=
  sniNameLoopAux (snEnd + 1) p snEnd offset

/-- The outer `while offset + 4 <= end_ext` walk over extensions,
driven by a fuel argument (`offset` grows by at least 4 per iteration,
so a fuel of `end_ext + 1` is always enough), stopping inside extension
type `0x0000`. -/
def sniExtLoopAux : Nat → List Byte → Nat → Nat → Option Str
  | 0, _, _, _ => none
  | fuel + 1, p, endExt, offset =>
    if offset + 4 ≤ endExt then
      match u16At? p offset, u16At? p (offset + 2) with
      | some extType, some extSize =>
        if extType = 0 then
          if offset + 4 + 2 > endExt then none
          else
            match u16At? p (offset + 4) with
            | none => none
            | some snListLen => sniNameLoop p (offset + 6 + snListLen) (offset + 6)
        else sniExtLoopAux fuel p endExt (offset + 4 + extSize)
      | _, _ => none
    else none

/-- The outer extension walk started with sufficient fuel. -/
def sniExtLoop (p : List Byte) (endExt offset : Nat) : Option Str :=
  sniExtLoopAux (endExt + 1) p endExt offset

/-- Embeds `extract_tls_sni(payload)`: the guard cascade of the ClientHello
parser (record type, handshake type, fixed prefix, session id, cipher
suites, compression methods, extensions length), then the extension
walk. -/
def extract_tls_sni (p : List Byte) : Option Str :=
  if p.length < 5 then none
  else if byteAt? p 0 ≠ some 22 then none
  else if p.length < 6 ∨ byteAt? p 5 ≠ some 1 then none
  else if p.length < 43 then none
  else if p.length < 44 then none
  else
    match byteAt? p 43 with
    | none => none
    | some sidLen =>
      let o1 := 44 + sidLen
      if p.length < o1 + 2 then none
      else
        match u16At? p o1 with
        | none => none
        | some csLen =>
          let o2 := o1 + 2 + csLen
          if p.length < o2 + 1 then none
          else
            match byteAt? p o2 with
            | none => none
            | some compLen =>
              let o3 := o2 + 1 + compLen
              if p.length < o3 + 2 then none
              else
                match u16At? p o3 with
                | none => none
                | some extLen =>
                  if o3 + 2 + extLen > p.length then none
                  else sniExtLoop p (o3 + 2 + extLen) (o3 + 2)

/-- UTF-8 encoding of one character (Python `str.encode()`); the
four-byte arm guards its high byte with a modulus because `Char`
already excludes anything above `0x10FFFF`. -/
def utf8EncodeChar (c : Char) : List Byte :=
  let n := c.toNat
  if h : n < 128 then [⟨n, by omega⟩]
  else if h : n < 2048 then [⟨192 + n / 64, by omega⟩, ⟨128 + n % 64, by omega⟩]
  else if h : n < 65536 then
    [⟨224 + n / 4096, by omega⟩, ⟨128 + (n / 64) % 64, by omega⟩, ⟨128 + n % 64, by omega⟩]
  else
    [⟨(240 + n / 262144) % 256, Nat.mod_lt _ (by omega)⟩,
      ⟨128 + (n / 4096) % 64, by omega⟩, ⟨128 + (n / 64) % 64, by omega⟩,
      ⟨128 + n % 64, by omega⟩]

/-- Embeds `str.encode()` (UTF-8). -/
def utf8Encode (s : Str) : List Byte :=
  s.foldr (fun c acc => utf8EncodeChar c ++ acc) []

/-- Embeds `DOH_HOST_FRAGMENTS` from the source. -/
def DOH_HOST_FRAGMENTS : List (List Byte) :=
  [strBytes "dns.google", strBytes "cloudflare-dns.com",
    strBytes "mozilla.cloudflare-dns.com", strBytes "one.one.one.one"]

/-- The step-4 host test: `host == d or host.endswith("." + d)`. -/
def hostMatchesDomain (h d : Str) : Bool :=
  h == d || ('.' :: d).isSuffixOf h

/-- The step-4 host loop: first blocked domain the host matches. -/
def findHostHit (domains : List Str) (h : Str) : Option Str :=
  domains.find? (fun d => hostMatchesDomain h d)

/-- The fallback payload scan: first blocked domain whose UTF-8 bytes
occur in `payload.lower()`. -/
def payloadScanHit (domains : List Str) (payload : List Byte) : Option Str :=
  domains.find? (fun d => pyIn (utf8Encode d) (pyBytesLower payload))

/-- Embeds `domain_hit` after steps 3-4: the host loop runs when a host was
extracted; the payload scan runs whenever `domain_hit` is still unset
(also when a host was extracted but matched nothing). -/
def domainHitOf (domains : List Str) (host : Option Str) (payload : List Byte) :
    Option Str :=
  match (match host with | some h => findHostHit domains h | none => none) with
  | some d => some d
  | none => payloadScanHit domains payload

/-- Step 5: `any(fragment in payload.lower() for fragment in
DOH_HOST_FRAGMENTS)`. -/
def dohHit (payload : List Byte) : Bool :=
  DOH_HOST_FRAGMENTS.any (fun f => pyIn f (pyBytesLower payload))

/-- Embeds `fnmatch.fnmatch` translated for the glob features app signatures
use (`*` and `?`); Windows `normcase` lower-cases both sides. -/
def globMatch : Str → Str → Bool
  | [], [] => true
  | '*' :: ps, [] => globMatch ps []
  | _ :: _, [] => false
  | [], _ :: _ => false
  | '*' :: ps, c :: cs => globMatch ps (c :: cs) || globMatch ('*' :: ps) cs
  | '?' :: ps, _ :: cs => globMatch ps cs
  | p :: ps, c :: cs => (p == c) && globMatch ps cs
termination_by p s => (p.length, s.length)
decreasing_by all_goals simp_wf <;> omega

/-- Embeds `fnmatch.fnmatch(host, pattern)`. -/
def fnmatchLower (h pat : Str) : Bool := globMatch (pyLower pat) (pyLower h)

/-- The app-signature loop: first signature with a non-empty pattern
matching the host. -/
def appHit (sigs : List AppSig) (h : Str) : Option AppSig :=
  sigs.find? (fun s => !s.pat.isEmpty && fnmatchLower h s.pat)

/-- The per-packet decision pipeline of `FirewallThread.run`: IP-level
deny, QUIC hard-drop, host/SNI extraction, domain match with fallback
payload scan, DoH hard-drop, app-signature match, default re-inject. -/
def processPacket (st : FilterState) (pkt : Packet) : Verdict :=
  if !pkt.dst_ip.isEmpty && st.blocked_ips.contains pkt.dst_ip then .dropIpBlock
  else if pkt.protocol == Proto.udp && pkt.dst_port == 443 then .dropQuic
  else
    let host := (extract_http_host pkt.payload).orElse
      (fun _ => extract_tls_sni pkt.payload)
    let dhit := domainHitOf st.domains host pkt.payload
    if dohHit pkt.payload then .dropDoh
    else
      match dhit with
      | some d => .dropDomain d
      | none =>
        match host with
        | some h =>
          match appHit st.app_signatures h with
          | some s => .dropApp s
          | none => .reinject
        | none => .reinject

/-- Embeds `reload_blocked_domains(db_path)`: the lower-cased stored domains,
or `[]` on any sqlite error (`dbOk = false`). -/
def reload_blocked_domains (dbOk : Bool) (stored : List Str) : List Str :=
  if dbOk then stored.map pyLower else []

/-- Embeds `get_blocked_ips(db_path)`: the stored IP set, or the empty set on
any sqlite error. -/
def get_blocked_ips (dbOk : Bool) (stored : List Str) : List Str :=
  if dbOk then stored else []

/-- Embeds `FirewallThread._reload_lists()`: replace both in-memory caches
with whatever the two readers return (app signatures are untouched). -/
def reload_lists (dbOk : Bool) (domStore ipStore : List Str)
    (st : FilterState) : FilterState :=
  { st with
    domains := reload_blocked_domains dbOk domStore
    blocked_ips := get_blocked_ips dbOk ipStore }

/-! ## Concrete inputs used by witnesses and counterexamples -/

/-- An empty filter state. -/
def emptyState : FilterState := ⟨[], [], []⟩

/-- A QUIC probe packet: UDP to port 443. -/
def quicPkt : Packet := ⟨str "1.2.3.4", 443, .udp, []⟩

/-- The single-entry blocked-domain list used by the C5 scenario. -/
def c5Domains : List Str := [str "facebook.com"]

/-- An HTTP request whose Host header is an unblocked domain while a
blocked domain occurs elsewhere in the payload. -/
def c5Payload : List Byte :=
  strBytes "GET /x HTTP/1.1\r\nHost: example.com\r\nReferer: facebook.com\r\n\r\n"

/-- The packet carrying `c5Payload`. -/
def c5Pkt : Packet := ⟨str "5.6.7.8", 80, .tcp, c5Payload⟩

/-- Filter state blocking `facebook.com` only. -/
def c5State : FilterState := ⟨c5Domains, [], []⟩

/-- An innocuous non-QUIC packet with no extractable host. -/
def c9Pkt : Packet := ⟨str "9.9.9.9", 80, .tcp, strBytes "hello"⟩

/-- A minimal TLS ClientHello whose SNI extension carries `x.com`:
record type `0x16`, handshake type `0x01`, empty session id, empty
cipher-suite and compression lists, a 14-byte extension block holding
one server-name extension with a single host-name entry. -/
def tlsHello : List Byte :=
  [22, 3, 1, 0, 58, 1, 0, 0, 59] ++ List.replicate 34 0 ++
    [0, 0, 0, 0, 0, 14, 0, 0, 0, 10, 0, 8, 0, 0, 5] ++ strBytes "x.com"

/-! # Theorems -/

/-! ### Arithmetic and codec lemmas -/

theorem toNat_ofNat_small (n : Nat) (h : n < 55296) : (Char.ofNat n).toNat = n := by
  unfold Char.ofNat
  rw [dif_pos (Or.inl h)]
  rfl

theorem pySplitChar_cons (sep c : Char) (rest : Str) :
    pySplitChar sep (c :: rest) =
      if c = sep then [] :: pySplitChar sep rest
      else
        match pySplitChar sep rest with
        | [] => [[c]]
        | h :: t => (c :: h) :: t := rfl

theorem hexDigitVal?_hexDigitChar (n : Nat) (h : n < 16) :
    hexDigitVal? (hexDigitChar n) = some ⟨n, h⟩ := by
  unfold hexDigitChar
  by_cases h10 : n < 10
  · rw [if_pos h10]
    unfold hexDigitVal?
    rw [dif_pos (by rw [toNat_ofNat_small _ (by omega)]; omega)]
    simp only [Option.some.injEq, Fin.mk.injEq, toNat_ofNat_small _ (by omega : 48 + n < 55296)]
    omega
  · rw [if_neg h10]
    unfold hexDigitVal?
    rw [dif_neg (by rw [toNat_ofNat_small _ (by omega)]; omega)]
    rw [dif_pos (by rw [toNat_ofNat_small _ (by omega)]; omega)]
    simp only [Option.some.injEq, Fin.mk.injEq, toNat_ofNat_small _ (by omega : 87 + n < 55296)]
    omega

theorem hexToBytes?_bytesToHex (bs : List Byte) :
    hexToBytes? (bytesToHex bs) = some bs := by
  induction bs with
  | nil => rfl
  | cons b rest ih =>
    have h1 : b.val / 16 < 16 := by omega
    have h2 : b.val % 16 < 16 := by omega
    simp only [bytesToHex, List.foldr_cons, byteToHex, List.cons_append,
      List.nil_append]
    show hexToBytes? (hexDigitChar (b.val / 16) :: hexDigitChar (b.val % 16) ::
      bytesToHex rest) = some (b :: rest)
    unfold hexToBytes?
    rw [hexDigitVal?_hexDigitChar _ h1, hexDigitVal?_hexDigitChar _ h2]
    rw [show bytesToHex rest = List.foldr (fun b acc => byteToHex b ++ acc) [] rest from rfl] at ih ⊢
    rw [ih]
    simp only [Option.some.injEq, List.cons.injEq, and_true]
    apply Fin.ext
    show b.val / 16 * 16 + b.val % 16 = b.val
    rw [Nat.mul_comm]
    exact Nat.div_add_mod b.val 16

theorem hexDigitChar_mem_range (n : Nat) (h : n < 16) :
    (48 ≤ (hexDigitChar n).toNat ∧ (hexDigitChar n).toNat ≤ 57) ∨
    (97 ≤ (hexDigitChar n).toNat ∧ (hexDigitChar n).toNat ≤ 102) := by
  unfold hexDigitChar
  by_cases h10 : n < 10
  · rw [if_pos h10, toNat_ofNat_small _ (by omega)]; omega
  · rw [if_neg h10, toNat_ofNat_small _ (by omega)]; omega

theorem bytesToHex_no_dollar (bs : List Byte) : '$' ∉ bytesToHex bs := by
  induction bs with
  | nil => simp [bytesToHex]
  | cons b rest ih =>
    simp only [bytesToHex, List.foldr_cons, byteToHex, List.cons_append,
      List.nil_append, List.mem_cons, not_or]
    refine ⟨?_, ?_, ih⟩
    · intro hc
      have := hexDigitChar_mem_range (b.val / 16) (by omega)
      rw [← hc] at this
      simp only [show ('$').toNat = 36 from rfl] at this
      omega
    · intro hc
      have := hexDigitChar_mem_range (b.val % 16) (by omega)
      rw [← hc] at this
      simp only [show ('$').toNat = 36 from rfl] at this
      omega

theorem pySplitChar_of_no_sep (sep : Char) (s : Str) (h : sep ∉ s) :
    pySplitChar sep s = [s] := by
  induction s with
  | nil => rfl
  | cons c cs ih =>
    simp only [List.mem_cons, not_or] at h
    rw [pySplitChar_cons, if_neg (fun hc => h.1 hc.symm), ih h.2]

theorem pySplitChar_append_sep (sep : Char) (s t : Str) (h : sep ∉ s) :
    pySplitChar sep (s ++ sep :: t) = s :: pySplitChar sep t := by
  induction s with
  | nil =>
    simp only [List.nil_append]
    rw [pySplitChar_cons, if_pos rfl]
  | cons c cs ih =>
    simp only [List.mem_cons, not_or] at h
    simp only [List.cons_append]
    rw [pySplitChar_cons, if_neg (fun hc => h.1 hc.symm), ih h.2]

/-! ### C8 -/

/-- C8: for every non-empty password `p` and every 16-byte salt, hashing
with the default 150 000 iterations produces a stored string that
`verify_password` accepts for `p` (the `iterations$salt_hex$hash_hex`
round trip). -/
theorem verify_hash_roundtrip (pbkdf2 : Str → List Byte → Nat → List Byte)
    (salt : List Byte) (p : Str) (hp : p ≠ []) (hs : salt.length = SALT_BYTES) :
    ∃ stored, hash_password pbkdf2 salt PBKDF2_ITERATIONS p = some stored ∧
      verify_password pbkdf2 stored p = true := by
  refine ⟨natToDec PBKDF2_ITERATIONS ++ '$' :: bytesToHex salt ++ '$' ::
    bytesToHex (pbkdf2 p salt PBKDF2_ITERATIONS), ?_, ?_⟩
  · unfold hash_password
    rw [if_neg hp]
  · have hno : '$' ∉ natToDec PBKDF2_ITERATIONS := by decide
    have hsplit : pySplitChar '$' (natToDec PBKDF2_ITERATIONS ++ '$' ::
        bytesToHex salt ++ '$' :: bytesToHex (pbkdf2 p salt PBKDF2_ITERATIONS)) =
        [natToDec PBKDF2_ITERATIONS, bytesToHex salt,
          bytesToHex (pbkdf2 p salt PBKDF2_ITERATIONS)] := by
      simp only [List.append_assoc, List.cons_append]
      rw [pySplitChar_append_sep _ _ _ hno,
        pySplitChar_append_sep _ _ _ (bytesToHex_no_dollar salt),
        pySplitChar_of_no_sep _ _ (bytesToHex_no_dollar _)]
    have hint : pyInt? (natToDec PBKDF2_ITERATIONS) = some PBKDF2_ITERATIONS := by
      decide
    unfold verify_password
    rw [hsplit]
    simp only [hint, hexToBytes?_bytesToHex]
    simp

/-- Witness for C8 at a concrete password and salt. -/
theorem verify_hash_roundtrip_witness :
    str "pw" ≠ [] ∧ salt16.length = SALT_BYTES ∧
      ∃ stored, hash_password pbkdf2Demo salt16 PBKDF2_ITERATIONS (str "pw") =
          some stored ∧
        verify_password pbkdf2Demo stored (str "pw") = true :=
  ⟨by decide, by decide,
    verify_hash_roundtrip pbkdf2Demo salt16 (str "pw") (by decide) (by decide)⟩

/-! ### C7 -/

/-- C7 (code evaluated at the failing input): on a fresh run (empty user
table, no marker), the bootstrap writes a marker with plaintext
credentials `admin`/`password`, but the account that actually exists
was created by `security`'s import-time `ensure_default_admin()` with
password `"admin"`; `create_user("admin", "password", ...)` then fails
(`admin_created = false`) and `validate_user("admin", "password")`
returns `false` (while `validate_user("admin", "admin")` succeeds). -/
theorem install_default_login_fails :
    (ensure_fresh_installation pbkdf2Demo salt16 salt16 []).map
        (fun r => (r.2.username, r.2.password, r.2.admin_created,
          validate_user pbkdf2Demo r.1 (str "admin") (str "password"),
          validate_user pbkdf2Demo r.1 (str "admin") (str "admin"))) =
      some (str "admin", str "password", false, false, true) := by
  decide

/-! ### C2 -/

/-- C2 (counterexample): the claim states that a cached `*.facebook.com`
does **not** match the query `facebook.com`; in the code
`"*.facebook.com".lower().lstrip("*.")` strips every leading `*` and
`.` character, yielding `facebook.com`, which the query equals, so the
query is blocked. -/
theorem dns_wildcard_matches_bare_domain :
    dns_is_blocked [str "*.facebook.com"] (str "facebook.com") = true := by
  decide

/-- C2 (amended): a query is answered NXDOMAIN iff some non-empty cached
domain `d`, after removal of *all* leading `*` and `.` characters from
`d.lower()`, equals the normalised query or is a `"." + d` suffix of it;
consequently a cached `*.facebook.com` matches `www.facebook.com` *and*
`facebook.com`, and a cached `facebook.com` matches both as well. -/
theorem dns_is_blocked_characterization :
    (∀ (cache : List Str) (qname : Str),
      dns_is_blocked cache qname = true ↔
        ∃ d ∈ cache, d ≠ [] ∧
          (dnsNormalize qname = dnsCheckOf d ∨
            ('.' :: dnsCheckOf d) <:+ dnsNormalize qname)) ∧
    dns_is_blocked [str "*.facebook.com"] (str "www.facebook.com") = true ∧
    dns_is_blocked [str "*.facebook.com"] (str "facebook.com") = true ∧
    dns_is_blocked [str "facebook.com"] (str "www.facebook.com") = true ∧
    dns_is_blocked [str "facebook.com"] (str "facebook.com") = true := by
  refine ⟨?_, by decide, by decide, by decide, by decide⟩
  intro cache qname
  simp only [dns_is_blocked, List.any_eq_true, Bool.and_eq_true,
    Bool.not_eq_true', List.isEmpty_eq_false, Bool.or_eq_true, beq_iff_eq,
    List.isSuffixOf_iff_suffix]

/-! ### C6 -/

/-- C6: for every query whose name is blocked, the proxy's reply echoes
the request id and has `QR=1`, `AA=1`, `RA=1`, `RCODE=NXDOMAIN` and no
answer records. -/
theorem dns_blocked_reply_shape (cache : List Str) (reqId : Nat) (q : Str)
    (h : dns_is_blocked cache q = true) :
    handle_query cache reqId q =
      DNSAction.reply
        { header := { hid := reqId, qr := 1, aa := 1, ra := 1, rcode := 3 }
          answers := [] } := by
  simp [handle_query, h, nxdomainReply, NXDOMAIN]

/-- Witness for C6 at a concrete blocked query. -/
theorem dns_blocked_reply_shape_witness :
    dns_is_blocked [str "facebook.com"] (str "www.facebook.com") = true ∧
    handle_query [str "facebook.com"] 7 (str "www.facebook.com") =
      DNSAction.reply
        { header := { hid := 7, qr := 1, aa := 1, ra := 1, rcode := 3 }
          answers := [] } :=
  ⟨by decide, dns_blocked_reply_shape _ 7 _ (by decide)⟩

/-! ### Blocked-IP store lemmas -/

theorem insertIpOrIgnore_mem_self (rows : List BlockedIPRow) (r : BlockedIPRow) :
    (insertIpOrIgnore rows r).any (fun x => x.ip == r.ip) = true := by
  unfold insertIpOrIgnore
  split
  · assumption
  · simp [List.any_append]

theorem insertIpOrIgnore_any_mono (rows : List BlockedIPRow) (r : BlockedIPRow)
    (ip : Str) (h : rows.any (fun x => x.ip == ip) = true) :
    (insertIpOrIgnore rows r).any (fun x => x.ip == ip) = true := by
  unfold insertIpOrIgnore
  split
  · exact h
  · simp [List.any_append, h]

theorem foldl_insert_mem (ips : List Str) (rows : List BlockedIPRow) (ip : Str)
    (h : ip ∈ ips ∨ rows.any (fun x => x.ip == ip) = true) :
    (ips.foldl (fun rs i => insertIpOrIgnore rs ⟨i, none, none, none⟩) rows).any
      (fun x => x.ip == ip) = true := by
  induction ips generalizing rows with
  | nil =>
    rcases h with h | h
    · cases h
    · simpa using h
  | cons i is ih =>
    simp only [List.foldl_cons]
    apply ih
    rcases h with h | h
    · rcases List.mem_cons.mp h with he | hm
      · subst he
        exact Or.inr (insertIpOrIgnore_mem_self rows ⟨ip, none, none, none⟩)
      · exact Or.inl hm
    · exact Or.inr (insertIpOrIgnore_any_mono rows _ ip h)

theorem foldl_insert_fresh (ips : List Str) (rows : List BlockedIPRow)
    (hnd : ips.Nodup)
    (hfresh : ∀ i ∈ ips, rows.any (fun x => x.ip == i) = false) :
    ips.foldl (fun rs i => insertIpOrIgnore rs ⟨i, none, none, none⟩) rows =
      rows ++ ips.map (fun ip => ⟨ip, none, none, none⟩) := by
  induction ips generalizing rows with
  | nil => simp
  | cons i is ih =>
    have h1 : rows.any (fun x => x.ip == i) = false :=
      hfresh i (List.mem_cons_self i is)
    have hins : insertIpOrIgnore rows ⟨i, none, none, none⟩ =
        rows ++ [⟨i, none, none, none⟩] := by
      simp [insertIpOrIgnore, h1]
    have hnd' := (List.nodup_cons.mp hnd).2
    have hfresh' : ∀ j ∈ is,
        ((rows ++ [(⟨i, none, none, none⟩ : BlockedIPRow)]).any
          fun x => x.ip == j) = false := by
      intro j hj
      have hij : i ≠ j := fun he => (List.nodup_cons.mp hnd).1 (he ▸ hj)
      simp [List.any_append, hfresh j (List.mem_cons_of_mem i hj),
        beq_eq_false_iff_ne.mpr hij]
    simp only [List.foldl_cons, hins]
    rw [ih (rows ++ [(⟨i, none, none, none⟩ : BlockedIPRow)]) hnd' hfresh']
    simp

/-! ### C1 -/

/-- C1 (counterexample): `sync_blocked_ips` applies no critical-set
filter: when a blocked domain resolves to the well-known resolver
`8.8.8.8` (a member of the critical-protection set), the sync write
path inserts a `blocked_ips` row with exactly that IP. -/
theorem sync_blocked_ips_inserts_critical :
    (criticalIps none).contains (str "8.8.8.8") = true ∧
    (sync_blocked_ips (fun _ => [str "8.8.8.8"]) [str "dns.google"] []).rows =
      [⟨str "8.8.8.8", none, none, none⟩] := by
  constructor
  · decide
  · decide

/-- C1 (amended): only `_add_temporary_block_ip` refuses IPs from the
critical-protection set (it leaves the table unchanged for them); the
other two write paths, `sync_blocked_ips` and `_resolve_and_store_ips`,
insert every resolved IP unfiltered, critical or not. -/
theorem critical_filter_only_temp_path :
    (∀ (critical : List Str) (rows : List BlockedIPRow) (ip dom exp : Str),
        ip ∈ critical → add_temporary_block_ip critical rows ip dom exp = rows) ∧
    (∀ (resolve : Str → List Str) (domains : List Str) (ip : Str),
        ip ∈ resolvedUnion resolve domains →
        ((sync_blocked_ips resolve domains []).rows.any
          (fun r => r.ip == ip)) = true) ∧
    (∀ (resolved : List Str) (rows : List BlockedIPRow) (ip : Str),
        ip ∈ resolved →
        ((resolve_and_store_ips resolved rows).any (fun r => r.ip == ip)) = true) := by
  refine ⟨?_, ?_, ?_⟩
  · intro critical rows ip dom exp hmem
    unfold add_temporary_block_ip
    by_cases he : ip = []
    · rw [if_pos he]
    · rw [if_neg he, if_pos]
      exact List.elem_eq_true_of_mem hmem
  · intro resolve domains ip hmem
    exact foldl_insert_mem _ _ _ (Or.inl hmem)
  · intro resolved rows ip hmem
    exact foldl_insert_mem _ _ _ (Or.inl hmem)

/-- Witness for C1 (amended) at concrete inputs: the temp path drops a
critical IP silently, while sync and resolve-and-store insert the
resolved IPs they are given. -/
theorem critical_filter_only_temp_path_witness :
    add_temporary_block_ip (criticalIps none) [] (str "8.8.8.8") (str "d") (str "t") = [] ∧
    ((sync_blocked_ips (fun _ => [str "8.8.8.8"]) [str "dns.google"] []).rows.any
      (fun r => r.ip == str "8.8.8.8")) = true ∧
    ((resolve_and_store_ips [str "1.2.3.4"] []).any
      (fun r => r.ip == str "1.2.3.4")) = true :=
  ⟨critical_filter_only_temp_path.1 (criticalIps none) [] (str "8.8.8.8")
      (str "d") (str "t") (by decide),
    critical_filter_only_temp_path.2.1 (fun _ => [str "8.8.8.8"])
      [str "dns.google"] (str "8.8.8.8") (by decide),
    critical_filter_only_temp_path.2.2 [str "1.2.3.4"] [] (str "1.2.3.4")
      (by decide)⟩

/-! ### C3 -/

/-- C3 (counterexample): `sync_blocked_ips` executes `DELETE FROM
blocked_ips` with no `WHERE expires_at IS NULL` clause, so a temporary
row (non-null `expires_at`) does not survive the resync; the inserted
set is not filtered against the critical-protection set; and the
function sets no reload signal itself. -/
theorem sync_blocked_ips_discards_temp_rows :
    sync_blocked_ips (fun _ => [str "8.8.8.8"]) [str "dns.google"]
        [⟨str "9.9.9.9", some (str "other.com"),
          some (str "2025-01-01 00:00:00"), some (str "auto-temp")⟩] =
      { rows := [⟨str "8.8.8.8", none, none, none⟩], reload_signaled := false } := by
  decide

/-- C3 (amended): `sync_blocked_ips` replaces the whole table — every
prior row is deleted, temporary blocks included — with one bare row per
resolved IP (union over all blocked domains, no critical-set
exclusion), committing once; it does not itself signal the filter
engine to reload (its callers set the reload event after it returns). -/
theorem sync_blocked_ips_spec (resolve : Str → List Str) (domains : List Str)
    (prior : List BlockedIPRow) :
    sync_blocked_ips resolve domains prior =
      { rows := (resolvedUnion resolve domains).map
          (fun ip => ⟨ip, none, none, none⟩)
        reload_signaled := false } := by
  unfold sync_blocked_ips
  have h := foldl_insert_fresh (resolvedUnion resolve domains) []
    (List.nodup_dedup _) (fun i _ => rfl)
  simp only [List.nil_append] at h
  simp [h]

/-! ### C4 -/

/-- C4: every captured UDP packet to destination port 443 is dropped by
the per-packet pipeline — either at the IP-level deny or at the QUIC
hard-drop — regardless of payload or destination IP; it is never
re-injected. -/
theorem udp443_always_dropped (st : FilterState) (pkt : Packet)
    (hu : pkt.protocol = Proto.udp) (hp : pkt.dst_port = 443) :
    processPacket st pkt = Verdict.dropIpBlock ∨
      processPacket st pkt = Verdict.dropQuic := by
  by_cases hip : (!pkt.dst_ip.isEmpty && st.blocked_ips.contains pkt.dst_ip) = true
  · left
    unfold processPacket
    rw [if_pos hip]
  · right
    unfold processPacket
    rw [if_neg hip, if_pos (by simp [hu, hp])]

/-- Witness for C4 at a concrete UDP/443 packet. -/
theorem udp443_always_dropped_witness :
    quicPkt.protocol = Proto.udp ∧ quicPkt.dst_port = 443 ∧
      (processPacket emptyState quicPkt = Verdict.dropIpBlock ∨
        processPacket emptyState quicPkt = Verdict.dropQuic) :=
  ⟨rfl, rfl, udp443_always_dropped emptyState quicPkt rfl rfl⟩

/-! ### C5 -/

/-- C5 (counterexample): the fallback substring scan is *not* limited
to packets without an extracted host — on an HTTP request whose Host
header is the unblocked `example.com` but whose payload contains the
blocked `facebook.com` elsewhere, the pipeline still reaches the scan
and drops the packet as a domain hit (the claim implies it would be
re-injected). -/
theorem extracted_host_mismatch_scanned_anyway :
    extract_http_host c5Payload = some (str "example.com") ∧
    findHostHit c5Domains (str "example.com") = none ∧
    processPacket c5State c5Pkt = Verdict.dropDomain (str "facebook.com") := by
  refine ⟨by decide, by decide, by decide⟩

/-- C5 (amended): the host-match rule is `h == d` or `h` ends with
`"." + d`; the fallback case-insensitive substring scan runs whenever
the host phase produced no hit — both when no host was extracted *and*
when an extracted host matched no blocked domain. -/
theorem domain_match_rule_and_fallback :
    (∀ (h d : Str), hostMatchesDomain h d = true ↔
        (h = d ∨ ('.' :: d) <:+ h)) ∧
    (∀ (domains : List Str) (h : Str) (payload : List Byte) (d : Str),
        findHostHit domains h = some d →
        domainHitOf domains (some h) payload = some d) ∧
    (∀ (domains : List Str) (h : Str) (payload : List Byte),
        findHostHit domains h = none →
        domainHitOf domains (some h) payload = payloadScanHit domains payload) ∧
    (∀ (domains : List Str) (payload : List Byte),
        domainHitOf domains none payload = payloadScanHit domains payload) := by
  refine ⟨?_, ?_, ?_, ?_⟩
  · intro h d
    simp [hostMatchesDomain, List.isSuffixOf_iff_suffix]
  · intro domains h payload d hfind
    simp [domainHitOf, hfind]
  · intro domains h payload hfind
    simp [domainHitOf, hfind]
  · intro domains payload
    rfl

/-- Witness for C5 (amended) at concrete inputs. -/
theorem domain_match_rule_and_fallback_witness :
    hostMatchesDomain (str "www.facebook.com") (str "facebook.com") = true ∧
    domainHitOf c5Domains (some (str "www.facebook.com")) [] =
      some (str "facebook.com") ∧
    domainHitOf c5Domains (some (str "example.com")) c5Payload =
      payloadScanHit c5Domains c5Payload ∧
    domainHitOf c5Domains none c5Payload = payloadScanHit c5Domains c5Payload :=
  ⟨(domain_match_rule_and_fallback.1 (str "www.facebook.com")
      (str "facebook.com")).mpr (Or.inr (by decide)),
    domain_match_rule_and_fallback.2.1 c5Domains (str "www.facebook.com") []
      (str "facebook.com") (by decide),
    domain_match_rule_and_fallback.2.2.1 c5Domains (str "example.com")
      c5Payload (by decide),
    domain_match_rule_and_fallback.2.2.2 c5Domains c5Payload⟩

/-! ### C9 -/

/-- C9 (counterexample): after a failed reload both caches are empty,
yet not *all* traffic is re-injected — a UDP/443 packet is still
dropped by the unconditional QUIC rule. -/
theorem failed_reload_still_drops_udp443 :
    (reload_lists false [str "facebook.com"] [str "1.2.3.4"]
        ⟨[str "a"], [str "b"], []⟩).domains = [] ∧
    (reload_lists false [str "facebook.com"] [str "1.2.3.4"]
        ⟨[str "a"], [str "b"], []⟩).blocked_ips = [] ∧
    processPacket (reload_lists false [str "facebook.com"] [str "1.2.3.4"]
        ⟨[str "a"], [str "b"], []⟩) quicPkt = Verdict.dropQuic := by
  refine ⟨rfl, rfl, by decide⟩

/-- C9 (amended): a sqlite error makes `reload_blocked_domains` return
the empty list and `get_blocked_ips` the empty set instead of raising,
so a failed `_reload_lists` silently empties both in-memory caches; the
filter then re-injects every packet that is not caught by the
list-independent rules (QUIC hard-drop, DoH-fragment drop,
app-signature match) until a later reload succeeds. -/
theorem db_error_fails_open (domStore ipStore : List Str) (st : FilterState)
    (pkt : Packet)
    (hquic : (pkt.protocol == Proto.udp && pkt.dst_port == 443) = false)
    (hdoh : dohHit pkt.payload = false)
    (happ : ∀ h, (extract_http_host pkt.payload).orElse
        (fun _ => extract_tls_sni pkt.payload) = some h →
        appHit st.app_signatures h = none) :
    reload_blocked_domains false domStore = [] ∧
    get_blocked_ips false ipStore = [] ∧
    processPacket (reload_lists false domStore ipStore st) pkt =
      Verdict.reinject := by
  refine ⟨rfl, rfl, ?_⟩
  have hstate : reload_lists false domStore ipStore st =
      ⟨[], [], st.app_signatures⟩ := rfl
  have hc : ([] : List Str).contains pkt.dst_ip = false := rfl
  have hdom : ∀ (host : Option Str) (pl : List Byte),
      domainHitOf [] host pl = none := by
    intro host pl
    cases host <;> rfl
  rw [hstate]
  unfold processPacket
  simp only [hc, Bool.and_false, hquic, hdom, hdoh, if_false, Bool.false_eq_true,
    if_neg]
  cases hh : (extract_http_host pkt.payload).orElse
    (fun _ => extract_tls_sni pkt.payload) with
  | none => rfl
  | some h => simp [happ h hh]

/-- Witness for C9 (amended) at a concrete innocuous packet. -/
theorem db_error_fails_open_witness :
    (c9Pkt.protocol == Proto.udp && c9Pkt.dst_port == 443) = false ∧
    dohHit c9Pkt.payload = false ∧
    processPacket (reload_lists false [str "facebook.com"] [str "1.2.3.4"]
      emptyState) c9Pkt = Verdict.reinject :=
  ⟨by decide, by decide,
    (db_error_fails_open [str "facebook.com"] [str "1.2.3.4"] emptyState c9Pkt
      (by decide) (by decide) (fun h _ => rfl)).2.2⟩

/-! ### Lower-casing lemmas -/

theorem pyLowerChar_idem (c : Char) : pyLowerChar (pyLowerChar c) = pyLowerChar c := by
  unfold pyLowerChar
  by_cases h1 : 65 ≤ c.toNat ∧ c.toNat ≤ 90
  · rw [if_pos h1]
    have ht : (Char.ofNat (c.toNat + 32)).toNat = c.toNat + 32 :=
      toNat_ofNat_small _ (by omega)
    rw [if_neg (by rw [ht]; omega), if_neg (by rw [ht]; omega)]
  · rw [if_neg h1]
    by_cases h2 : 192 ≤ c.toNat ∧ c.toNat ≤ 222 ∧ c.toNat ≠ 215
    · rw [if_pos h2]
      have ht : (Char.ofNat (c.toNat + 32)).toNat = c.toNat + 32 :=
        toNat_ofNat_small _ (by omega)
      rw [if_neg (by rw [ht]; omega), if_neg (by rw [ht]; omega)]
    · rw [if_neg h2, if_neg h1, if_neg h2]

theorem pyLower_idem (s : Str) : pyLower (pyLower s) = pyLower s := by
  unfold pyLower
  rw [List.map_map]
  exact List.map_congr_left (fun c _ => pyLowerChar_idem c)

theorem httpHostFromLines_lower (lines : List Str) (s : Str)
    (h : httpHostFromLines lines = some s) : pyLower s = s := by
  induction lines with
  | nil => exact absurd h (by simp [httpHostFromLines])
  | cons line rest ih =>
    unfold httpHostFromLines at h
    split at h
    · injection h with h'
      subst h'
      exact pyLower_idem _
    · exact ih h

theorem sniNameLoopAux_lower (fuel : Nat) :
    ∀ (p : List Byte) (snEnd offset : Nat) (s : Str),
      sniNameLoopAux fuel p snEnd offset = some s → pyLower s = s := by
  induction fuel with
  | zero =>
    intro p snEnd offset s h
    exact absurd h (by simp [sniNameLoopAux])
  | succ n ih =>
    intro p snEnd offset s h
    unfold sniNameLoopAux at h
    split at h
    · split at h
      · exact absurd h (by simp)
      · split at h
        · exact absurd h (by simp)
        · split at h
          · exact absurd h (by simp)
          · split at h
            · injection h with h'
              subst h'
              exact pyLower_idem _
            · exact ih p snEnd _ s h
    · exact absurd h (by simp)

theorem sniExtLoopAux_lower (fuel : Nat) :
    ∀ (p : List Byte) (endExt offset : Nat) (s : Str),
      sniExtLoopAux fuel p endExt offset = some s → pyLower s = s := by
  induction fuel with
  | zero =>
    intro p endExt offset s h
    exact absurd h (by simp [sniExtLoopAux])
  | succ n ih =>
    intro p endExt offset s h
    unfold sniExtLoopAux at h
    split at h
    · split at h
      · split at h
        · split at h
          · exact absurd h (by simp)
          · split at h
            · exact absurd h (by simp)
            · exact sniNameLoopAux_lower _ p _ _ s h
        · exact ih p endExt _ s h
      · exact absurd h (by simp)
    · exact absurd h (by simp)

/-! ### C10 -/

/-- C10: both payload parsers are total functions on arbitrary byte
payloads (every access in the embedding is a guarded or truncating
read, mirroring the source's length checks and its catch-all `except`
handlers), and whenever one returns a host it is a lower-cased string
(a fixed point of `pyLower`). -/
theorem extractors_total_and_lower (payload : List Byte) :
    (∀ s, extract_http_host payload = some s → pyLower s = s) ∧
    (∀ s, extract_tls_sni payload = some s → pyLower s = s) := by
  constructor
  · intro s h
    unfold extract_http_host at h
    split at h
    · exact absurd h (by simp)
    · split at h
      · exact absurd h (by simp)
      · exact httpHostFromLines_lower _ s h
  · intro s h
    unfold extract_tls_sni at h
    repeat
      any_goals first
        | (exact sniExtLoopAux_lower _ payload _ _ s h)
        | (obtain ⟨-, h⟩ := h)
        | (split at h)
        | (simp only [Option.ite_none_left_eq_some, reduceCtorEq] at h)

/-- Witness for C10: concrete HTTP and TLS payloads on which each
extractor returns a host, and that host is its own lower-casing. -/
theorem extractors_total_and_lower_witness :
    extract_http_host c5Payload = some (str "example.com") ∧
    pyLower (str "example.com") = str "example.com" ∧
    extract_tls_sni tlsHello = some (str "x.com") ∧
    pyLower (str "x.com") = str "x.com" :=
  ⟨by decide,
    (extractors_total_and_lower c5Payload).1 (str "example.com") (by decide),
    by decide,
    (extractors_total_and_lower tlsHello).2 (str "x.com") (by decide)⟩
